import Mathlib

/-!
Verification development for the oraicwinconfig installer.

The repository is a Windows command-line installer for the Oracle Instant
Client.  It downloads two zip archives, extracts them under an install
directory, verifies that both archives carry the same versioned top-level
directory name, and configures the per-user environment variables
OCI_LIB64, PATH and TNS_ADMIN.  The repository contains several historical
versions of the same program; the shallow embedding below models the
relevant functions of each cited version:

* package env (internal/install/install.go, third section): GetEnvVar,
  SetEnvVar, RemoveEnvVar, AppendToPath, RemoveFromPath;
* package utils / package oic (latest version): UnZip, Install, Uninstall;
* package install (src/unnamed/part_002): Remove (with the degenerate-path
  deletion guard) and unzipOracleInstantClient;
* the legacy single-file version (src/oraicwinconfig.go): reqUserConfirmation
  and reqUserInstallPath;
* package internal (src/unnamed/part_000): ReqUserConfirmation and the
  bounded ReqUserInstallPath.

Effectful Go code is embedded by explicit state passing: the per-user
environment-variable table is a total function from names to stored values
(the empty string standing for an unset variable, which is exactly how the
powershell query reports an unset variable), and filesystem effects that
matter to the claims (recursive directory removal) are recorded in an
explicit list.  Shell invocations themselves are assumed to succeed; the
only failures modelled are the ones the Go code itself produces and
inspects.  Go standard-library string and path functions used by the code
(strings.TrimSpace, strings.Contains, strings.Split, strings.Join,
filepath.Clean, filepath.Join, filepath.Dir) are modelled for the
ASCII, volume-less paths the program manipulates; Windows drive and UNC
volume prefixes, which never occur in zip entry names, are outside the
model and documented as such.
-/

namespace Oraic

/-- Error categories of the errs package (ErrorType in internal/errs). -/
inductive ErrorType where
  | download
  | install
  | environment
  | validation
  | userPath
  | envVarNotFound
  deriving DecidableEq

/-- InstallError of the errs package: a category, the operation description
passed to HandleError, and the message of the wrapped cause. -/
structure InstallError where
  etype : ErrorType
  operation : String
  msg : String
  deriving DecidableEq

/-- HandleError wraps a cause (already reduced to its message string) with a
category and an operation description. -/
def HandleError (msg : String) (etype : ErrorType) (operation : String) : InstallError :=
  { etype := etype, operation := operation, msg := msg }

/-- IsErrorType from the errs package: checks the category of an error. -/
def IsErrorType (e : InstallError) (t : ErrorType) : Bool :=
  e.etype == t

/-- Decidable equality of fallible results, used to state and evaluate the
outcomes of the embedded operations. -/
instance {ε α : Type} [dε : DecidableEq ε] [dα : DecidableEq α] :
    DecidableEq (Except ε α) := fun a b =>
  match a, b with
  | Except.error e, Except.error f =>
    match dε e f with
    | isTrue h => isTrue (h ▸ rfl)
    | isFalse h => isFalse fun c => h (Except.error.inj c)
  | Except.error _, Except.ok _ => isFalse fun c => Except.noConfusion c
  | Except.ok _, Except.error _ => isFalse fun c => Except.noConfusion c
  | Except.ok x, Except.ok y =>
    match dα x y with
    | isTrue h => isTrue (h ▸ rfl)
    | isFalse h => isFalse fun c => h (Except.ok.inj c)

/-- EnvState models the per-user environment-variable table that the
powershell calls read and write: a total map from variable names to stored
string values, where the empty string plays the role of an unset variable
(querying an unset variable through powershell yields empty output). -/
def EnvState : Type := String → String

/-- Update of the environment table at one name. -/
def EnvState.set (st : EnvState) (name value : String) : EnvState :=
  fun n => if n = name then value else st n

namespace Env

/-- Removal of leading and trailing whitespace from a character list; the
model of strings.TrimSpace for the ASCII values the installer handles. -/
def trimChars (l : List Char) : List Char :=
  ((l.dropWhile Char.isWhitespace).reverse.dropWhile Char.isWhitespace).reverse

/-- Model of strings.TrimSpace lifted to strings. -/
def TrimSpace (s : String) : String :=
  String.mk (trimChars s.data)

/-- Containment test on character lists: leadsChars sub hay holds when sub
is an initial segment of hay.  It backs the model of strings.Contains. -/
def leadsChars : List Char → List Char → Bool
  | [], _ => true
  | _ :: _, [] => false
  | a :: as, b :: bs => a == b && leadsChars as bs

/-- Substring search on character lists: hasSub hay sub holds when sub
occurs contiguously inside hay, as strings.Contains reports. -/
def hasSub : List Char → List Char → Bool
  | [], sub => sub.isEmpty
  | a :: hay, sub => leadsChars sub (a :: hay) || hasSub hay sub

/-- Model of strings.Contains: substring containment on the underlying
character sequences. -/
def goContains (s sub : String) : Bool :=
  hasSub s.data sub.data

/-- Model of strings.HasSuffix: the suffix read backwards is an initial
segment of the string read backwards. -/
def goHasSuffix (s suffix : String) : Bool :=
  leadsChars suffix.data.reverse s.data.reverse

/-- Model of strings.ToLower for the ASCII console input and variable
values the installer reads. -/
def goToLower (s : String) : String :=
  String.mk (s.data.map Char.toLower)

/-- Splitting of a character list at every occurrence of one separator
character; the model of strings.Split for the one-character ";" separator
the PATH manipulation uses. -/
def splitChar (sep : Char) : List Char → List (List Char)
  | [] => [[]]
  | c :: rest =>
    match splitChar sep rest with
    | [] => [[c]]
    | h :: t => if c = sep then [] :: h :: t else (c :: h) :: t

/-- Model of strings.Split(s, ";"). -/
def goSplitSemi (s : String) : List String :=
  (splitChar ';' s.data).map String.mk

/-- Degenerate stored values that GetEnvVar (internal/env, latest version)
treats as "not found": empty, ".", "..", "/" and "\\". -/
def isDegenerate (s : String) : Bool :=
  s == "" || s == "." || s == ".." || s == "/" || s == "\\"

/-- Error value produced by GetEnvVar when a variable is absent or
degenerate, as built by HandleError in the Go source. -/
def notFoundError (name : String) : InstallError :=
  HandleError ("environment variable " ++ name ++ " not found")
    ErrorType.envVarNotFound ("getting " ++ name ++ " environment variable")

/-- GetEnvVar of the internal/env package (latest version): reads the stored
value, trims surrounding whitespace, and fails with an env-var-not-found
error when the trimmed value is empty, ".", "..", "/" or "\\". -/
def GetEnvVar (st : EnvState) (name : String) : Except InstallError String :=
  let path := TrimSpace (st name)
  if isDegenerate path then
    Except.error (notFoundError name)
  else
    Except.ok path

/-- SetEnvVar of the internal/env package: stores the value at the name. -/
def SetEnvVar (st : EnvState) (name value : String) : EnvState :=
  st.set name value

/-- RemoveEnvVar of the internal/env package: sets the variable to $null,
i.e. makes it unset, which the table records as the empty string. -/
def RemoveEnvVar (st : EnvState) (name : String) : EnvState :=
  st.set name ""

/-- AppendToPath of the internal/env package: read PATH (which can fail with
env-var-not-found); if the new path occurs in PATH as a substring, change
nothing; otherwise append one ";" when the current value does not already
end with ";", then the new path, then a trailing ";". -/
def AppendToPath (st : EnvState) (newPath : String) : Except InstallError Unit × EnvState :=
  match GetEnvVar st "PATH" with
  | Except.error e => (Except.error e, st)
  | Except.ok currentPath =>
    if goContains currentPath newPath then
      (Except.ok (), st)
    else
      let base := if goHasSuffix currentPath ";" then currentPath else currentPath ++ ";"
      (Except.ok (), SetEnvVar st "PATH" (base ++ newPath ++ ";"))

/-- RemoveFromPath of the internal/env package: read PATH (which can fail
with env-var-not-found), split it on ";", drop every segment exactly equal
to the given path, and store the remaining segments rejoined with ";". -/
def RemoveFromPath (st : EnvState) (pathToRemove : String) : Except InstallError Unit × EnvState :=
  match GetEnvVar st "PATH" with
  | Except.error e => (Except.error e, st)
  | Except.ok currentPath =>
    let segments := goSplitSemi currentPath
    let newSegments := segments.filter (fun segment => segment ≠ pathToRemove)
    (Except.ok (), SetEnvVar st "PATH" (String.intercalate ";" newSegments))

end Env

namespace FilePath

/-- Separator test used by path/filepath on Windows: both the slash and the
backslash are path separators. -/
def isSepChar (c : Char) : Bool :=
  c == '/' || c == '\\'

/-- Splitting a character list at path separators; the empty components that
Go's cleaning loop skips over are kept here and filtered later. -/
def splitSeps : List Char → List (List Char)
  | [] => [[]]
  | c :: rest =>
    match splitSeps rest with
    | [] => [[c]]
    | h :: t => if isSepChar c then [] :: h :: t else (c :: h) :: t

/-- One step of filepath.Clean's element processing, maintained on a
reversed stack of output elements: empty and "." elements are dropped,
".." pops a previous real element (or is kept, or dropped at a root), and
any other element is pushed. -/
def cleanStep (rooted : Bool) (st : List (List Char)) (comp : List Char) : List (List Char) :=
  if comp = [] ∨ comp = ['.'] then st
  else if comp = ['.', '.'] then
    match st with
    | [] => if rooted then [] else [comp]
    | top :: rest => if top = ['.', '.'] then comp :: top :: rest else rest
  else comp :: st

/-- Model of filepath.Clean on Windows for paths without a drive or UNC
volume prefix: shortest equivalent path, with both separator kinds
recognised, output separators written as the backslash, and "." returned
for an empty result. -/
def cleanChars (l : List Char) : List Char :=
  let rooted := match l with
    | [] => false
    | c :: _ => isSepChar c
  let comps := splitSeps l
  let stack := comps.foldl (cleanStep rooted) []
  let body := List.intercalate ['\\'] stack.reverse
  if rooted then '\\' :: body
  else if body = [] then ['.'] else body

/-- Model of filepath.Clean lifted to strings. -/
def Clean (s : String) : String :=
  String.mk (cleanChars s.data)

/-- Model of filepath.Join: drop empty elements, join the rest with the
Windows separator, clean the result; all elements empty yields "". -/
def Join (elems : List String) : String :=
  let ne := elems.filter (fun e => e ≠ "")
  if ne = [] then "" else Clean (String.intercalate "\\" ne)

/-- Model of filepath.Dir for volume-less paths: everything up to and
including the final separator, cleaned; "." when there is no separator. -/
def Dir (s : String) : String :=
  let kept := ((s.data.reverse.dropWhile (fun c => !isSepChar c)).reverse)
  if kept = [] then "." else String.mk (cleanChars kept)

end FilePath

namespace Zip

/-- Consumption of a literal character-list head: dropLit lit l returns the
remainder of l after the exact characters of lit, or nothing. -/
def dropLit : List Char → List Char → Option (List Char)
  | [], rest => some rest
  | _ :: _, [] => none
  | c :: cs, d :: ds => if d = c then dropLit cs ds else none

/-- Consumption of one or two digits followed by a given separator
character, returning the remainder.  Together with dropLit this is the
POSIX regular expression used by every unzip version,
anchored at both ends: instantclient_ then [0-9]\x7b1,2\x7d then _ then
[0-9]\x7b1,2\x7d then a final slash. -/
def digitsThen (sep : Char) : List Char → Option (List Char)
  | [] => none
  | a :: rest =>
    if a.isDigit then
      match rest with
      | [] => none
      | b :: rest2 =>
        if b.isDigit then
          match rest2 with
          | [] => none
          | c :: rest3 => if c = sep then some rest3 else none
        else if b = sep then some rest2 else none
    else none

/-- Full-string match of the anchored POSIX pattern
^(instantclient_)([0-9]\x7b1,2\x7d)_([0-9]\x7b1,2\x7d)/$ on a character
list. -/
def icMatchChars (l : List Char) : Bool :=
  match dropLit ("instantclient_".data) l with
  | none => false
  | some r =>
    match digitsThen '_' r with
    | none => false
    | some r2 =>
      match digitsThen '/' r2 with
      | some [] => true
      | _ => false

/-- Regex match of an archive entry name against the instantclient
directory pattern, as re.Match does on the entry's name. -/
def icMatch (name : String) : Bool :=
  icMatchChars name.data

/-- Iteration core shared by every unzip version: walk the archive's entries
in order, remembering the name of the last entry matching the pattern
(outPath starts out as the empty string). -/
def lastMatch (entries : List String) : String :=
  entries.foldl (fun outPath f => if icMatch f then f else outPath) ""

/-- Error returned when no entry matched, as built in the Go source. -/
def noDirError : Oraic.InstallError :=
  Oraic.HandleError "no valid instant client directory found in zip"
    Oraic.ErrorType.install "validating zip contents"

/-- unzipOracleInstantClient of the original versions
(internal/install/install.go first section, src/oraicwinconfig.go): extract
every entry, remember the last entry name matching the pattern, fail when
none matched, and return the matched name as-is. -/
def unzipOracleInstantClient (entries : List String) : Except Oraic.InstallError String :=
  let outPath := lastMatch entries
  if outPath = "" then Except.error noDirError else Except.ok outPath

/-- UnZip of the utils package (and the identical unZip of the middle oic
section and part_002): same iteration, but the matched name is passed
through filepath.Clean before being returned. -/
def UnZip (entries : List String) : Except Oraic.InstallError String :=
  let outPath := lastMatch entries
  if outPath = "" then Except.error noDirError
  else Except.ok (FilePath.Clean outPath)

end Zip

/-- Wrapping of an already-classified error by a further HandleError call, as
errs.HandleError(err, t, op) does: the inner error prints as
"operation: message" and becomes the cause message of the wrapper. -/
def wrapError (e : InstallError) (t : ErrorType) (op : String) : InstallError :=
  HandleError (e.operation ++ ": " ++ e.msg) t op

/-- Model of fmt's %q verb for the plain installer paths that reach it:
the string surrounded by double quotes (none of the guarded values contain
characters that %q would escape). -/
def goQuote (s : String) : String :=
  "\"" ++ s ++ "\""

/-- InstallConfig of the internal/config package (latest version). -/
structure InstallConfig where
  InstallPath : String
  DownloadsPath : String
  PkgFile : String
  SdkFile : String
  BaseURL : String
  Extant : Bool
  deriving DecidableEq

/-- checkPathValidity of the internal/config package: rejects the empty
path, ".", "..", "/" and "\\". -/
def checkPathValidity (path : String) : Bool :=
  !(path == "" || path == "." || path == ".." || path == "/" || path == "\\")

/-- SetInstallPath of the internal/config package: validates the path and
either stores it or fails with a validation error. -/
def InstallConfig.SetInstallPath (c : InstallConfig) (path : String) :
    Except InstallError InstallConfig :=
  if checkPathValidity path then
    Except.ok { c with InstallPath := path }
  else
    Except.error (HandleError "install path cannot be empty or invalid"
      ErrorType.validation "setting install path")

namespace OIC

/-- Outcome of a run of Uninstall or Remove: the returned error value, the
final environment table, the directory trees passed to os.RemoveAll, and
the final configuration. -/
structure UninstallResult where
  result : Except InstallError Unit
  env : EnvState
  removed : List String
  conf : InstallConfig

/-- Uninstall of the latest oic package (internal/install/install.go, third
section, lines 641-681): read OCI_LIB64 (returning success immediately when
it is not found), strip its value from PATH, unset OCI_LIB64 and TNS_ADMIN,
recursively delete conf.InstallPath with no further check, and reset the
configured install path to the parent directory. -/
def Uninstall (conf : InstallConfig) (st : EnvState) : UninstallResult :=
  match Env.GetEnvVar st "OCI_LIB64" with
  | Except.error e =>
    if IsErrorType e ErrorType.envVarNotFound then
      { result := Except.ok (), env := st, removed := [], conf := conf }
    else
      { result := Except.error e, env := st, removed := [], conf := conf }
  | Except.ok envVar =>
    match Env.RemoveFromPath st envVar with
    | (Except.error e, st1) =>
      { result := Except.error e, env := st1, removed := [], conf := conf }
    | (Except.ok _, st1) =>
      let st2 := Env.RemoveEnvVar st1 "OCI_LIB64"
      let st3 := Env.RemoveEnvVar st2 "TNS_ADMIN"
      let removed := [conf.InstallPath]
      match conf.SetInstallPath (FilePath.Dir conf.InstallPath) with
      | Except.error e =>
        { result := Except.error e, env := st3, removed := removed, conf := conf }
      | Except.ok conf2 =>
        { result := Except.ok (), env := st3, removed := removed, conf := conf2 }

/-- Remove of the package install version (src/unnamed/part_002, lines
108-161): same cleanup sequence, but recursive deletion is guarded — an
install path equal to "", "/", "\\" or "." is refused with a fatal
install-category error before os.RemoveAll is reached, and the subsequent
reset of the install path re-checks the parent for degeneracy.  This
version assigns the config field directly instead of calling a setter. -/
def Remove (conf : InstallConfig) (st : EnvState) : UninstallResult :=
  match Env.GetEnvVar st "OCI_LIB64" with
  | Except.error e =>
    if IsErrorType e ErrorType.envVarNotFound then
      { result := Except.ok (), env := st, removed := [], conf := conf }
    else
      { result := Except.error (wrapError e ErrorType.environment
          "getting OCI_LIB64 environment variable"),
        env := st, removed := [], conf := conf }
  | Except.ok envVar =>
    match Env.RemoveFromPath st envVar with
    | (Except.error e, st1) =>
      { result := Except.error (wrapError e ErrorType.environment
          "removing OCI_LIB64 from PATH"),
        env := st1, removed := [], conf := conf }
    | (Except.ok _, st1) =>
      let st2 := Env.RemoveEnvVar st1 "OCI_LIB64"
      let st3 := Env.RemoveEnvVar st2 "TNS_ADMIN"
      if conf.InstallPath = "" ∨ conf.InstallPath = "/" ∨
         conf.InstallPath = "\\" ∨ conf.InstallPath = "." then
        { result := Except.error (HandleError
            ("refusing to remove invalid or critical system directory: " ++
              goQuote conf.InstallPath)
            ErrorType.install "removing installation directory"),
          env := st3, removed := [], conf := conf }
      else
        let removed := [conf.InstallPath]
        let newPath := FilePath.Dir conf.InstallPath
        let conf2 := { conf with InstallPath := newPath }
        if newPath = "" ∨ newPath = "/" ∨ newPath = "\\" ∨ newPath = "." then
          { result := Except.error (HandleError
              ("installation path reset to an invalid or critical system directory: " ++
                goQuote newPath)
              ErrorType.install "resetting installation path"),
            env := st3, removed := removed, conf := conf2 }
        else
          { result := Except.ok (), env := st3, removed := removed, conf := conf2 }

/-- Outcome of a run of Install: the returned error value, the final
environment table, and the tnsnames.ora migrations performed. -/
structure InstallResult where
  result : Except InstallError Unit
  env : EnvState
  migrated : List (String × String)

/-- Tail of Install after the PATH-append step (internal/install/install.go
lines 742-768): a failed append aborts with its error; otherwise TNS_ADMIN
is set to the library path joined with network and admin, and for an
existing installation the saved tnsnames.ora is migrated into the new
network/admin directory. -/
def installAfterAppend (conf : InstallConfig) (ociLibPath : String) :
    Except InstallError Unit × EnvState → InstallResult
  | (Except.error e, st2) =>
    { result := Except.error e, env := st2, migrated := [] }
  | (Except.ok _, st2) =>
    let tnsAdminPath := FilePath.Join [ociLibPath, "network", "admin"]
    let st3 := Env.SetEnvVar st2 "TNS_ADMIN" tnsAdminPath
    if conf.Extant then
      { result := Except.ok (), env := st3,
        migrated := [(FilePath.Join [conf.DownloadsPath, "tnsnames.ora"],
                      FilePath.Join [tnsAdminPath, "tnsnames.ora"])] }
    else
      { result := Except.ok (), env := st3, migrated := [] }

/-- Verification and configuration phase of Install
(internal/install/install.go lines 710-768), taking the two extraction
results: a package extraction failure is wrapped as "unzip package", an SDK
extraction failure as "unzip SDK"; a top-level directory mismatch is a
fatal install error raised before any environment mutation; otherwise
OCI_LIB64 is set to the install path joined with the extracted directory
and the library path is appended to PATH. -/
def installConfigure (conf : InstallConfig) (st : EnvState) :
    Except InstallError String → Except InstallError String → InstallResult
  | Except.error e, _ =>
    { result := Except.error (wrapError e ErrorType.install "unzip package"),
      env := st, migrated := [] }
  | Except.ok _, Except.error e =>
    { result := Except.error (wrapError e ErrorType.install "unzip SDK"),
      env := st, migrated := [] }
  | Except.ok pkgDir, Except.ok sdkDir =>
    if pkgDir ≠ sdkDir then
      { result := Except.error (HandleError
          ("package version (" ++ pkgDir ++ ") does not match SDK version (" ++
            sdkDir ++ ")")
          ErrorType.install "version verification"),
        env := st, migrated := [] }
    else
      let ociLibPath := FilePath.Join [conf.InstallPath, pkgDir]
      let st1 := Env.SetEnvVar st "OCI_LIB64" ociLibPath
      installAfterAppend conf ociLibPath (Env.AppendToPath st1 ociLibPath)

/-- Install of the latest oic package (internal/install/install.go, third
section, lines 684-769), taking the entry lists of the two downloaded
archives.  The two downloads write only to the filesystem and are modelled
as succeeding; extraction runs UnZip on each archive and the configuration
phase consumes the two results in the order the Go code checks them. -/
def Install (conf : InstallConfig) (pkgEntries sdkEntries : List String)
    (st : EnvState) : InstallResult :=
  installConfigure conf st (Zip.UnZip pkgEntries) (Zip.UnZip sdkEntries)

end OIC

namespace Input

/-- Outcome of the y/n confirmation prompt: acceptance of y or n, the fatal
abort on a read error (end of input), or the fatal abort after exhausting
the allowed attempts. -/
inductive ConfirmOutcome where
  | yes
  | no
  | readFatal
  | maxAttemptsFatal
  deriving DecidableEq

/-- Loop body of reqUserConfirmation, fuelled by the remaining attempts and
consuming one console line per iteration: lines are trimmed and lowercased,
"y" and "n" accepted, anything else retried until the attempts run out. -/
def reqUserConfirmationLoop : Nat → List String → ConfirmOutcome
  | 0, _ => ConfirmOutcome.maxAttemptsFatal
  | _ + 1, [] => ConfirmOutcome.readFatal
  | fuel + 1, s :: rest =>
    let t := Env.goToLower (Env.TrimSpace s)
    if t = "y" then ConfirmOutcome.yes
    else if t = "n" then ConfirmOutcome.no
    else reqUserConfirmationLoop fuel rest

/-- ReqUserConfirmation (src/unnamed/part_000 lines 68-92, identical to
reqUserConfirmation in src/oraicwinconfig.go lines 210-234): maxAttempts is
3, and running out of attempts aborts with "maximum input attempts
exceeded". -/
def ReqUserConfirmation (inputs : List String) : ConfirmOutcome :=
  reqUserConfirmationLoop 3 inputs

/-- Outcome of a directory-path prompt: an accepted path, the fatal abort on
a read error, the fatal abort after exhausting the allowed attempts, or —
for the unbounded legacy prompt only — exhaustion of the available input
with the loop still running (the Go code then re-reads the closed console
forever). -/
inductive PathOutcome where
  | accepted (path : String)
  | readFatal
  | maxAttemptsFatal
  | inputExhausted
  deriving DecidableEq

/-- Loop body of the bounded ReqUserInstallPath of src/unnamed/part_000
(lines 96-117): at most 3 attempts, a read error or empty read is fatal,
a trimmed line naming an existing directory (isDir abstracts os.Stat plus
IsDir) is accepted, anything else consumes an attempt. -/
def reqUserInstallPathLoop (isDir : String → Bool) : Nat → List String → PathOutcome
  | 0, _ => PathOutcome.maxAttemptsFatal
  | _ + 1, [] => PathOutcome.readFatal
  | fuel + 1, s :: rest =>
    if s = "" then PathOutcome.readFatal
    else
      let path := Env.TrimSpace s
      if isDir path then PathOutcome.accepted path
      else reqUserInstallPathLoop isDir fuel rest

/-- ReqUserInstallPath of src/unnamed/part_000: the bounded prompt with
maxAttempts 3. -/
def ReqUserInstallPath (isDir : String → Bool) (inputs : List String) : PathOutcome :=
  reqUserInstallPathLoop isDir 3 inputs

/-- reqUserInstallPath of the legacy single-file version
(src/oraicwinconfig.go lines 236-250): an unconditional for-loop with no
attempt counter; the read error is discarded, so exhausted input leaves the
loop spinning on empty reads — modelled by the inputExhausted outcome.
This prompt can never abort with "maximum input attempts exceeded". -/
def reqUserInstallPathLegacy (isDir : String → Bool) : List String → PathOutcome
  | [] => PathOutcome.inputExhausted
  | s :: rest =>
    let path := Env.TrimSpace s
    if isDir path then PathOutcome.accepted path
    else reqUserInstallPathLegacy isDir rest

end Input

/-! Supporting lemmas. -/

/-- Last element of a nonempty list with default is a member. -/
theorem getLastD_mem {α : Type} (l : List α) : ∀ d : α, l ≠ [] → l.getLastD d ∈ l := by
  induction l with
  | nil => intro d h; exact absurd rfl h
  | cons x xs ih =>
    intro d _
    rw [List.getLastD_cons]
    by_cases hx : xs = []
    · subst hx; simp
    · exact List.mem_cons_of_mem x (ih x hx)

/-- Folding "keep the last element satisfying p" over a list computes the
last element of the filtered list, with the accumulator as default. -/
theorem foldl_keep_last {α : Type} (p : α → Bool) (l : List α) :
    ∀ a : α, l.foldl (fun acc e => if p e then e else acc) a = (l.filter p).getLastD a := by
  induction l with
  | nil => intro a; rfl
  | cons x xs ih =>
    intro a
    by_cases h : p x
    · simp only [List.foldl_cons, List.filter_cons, h, if_true]
      rw [List.getLastD_cons]
      exact ih x
    · simp only [List.foldl_cons, List.filter_cons, h, if_false, Bool.false_eq_true]
      exact ih a

/-- Unfolding of the unzip iteration: the remembered entry is the last
entry of the archive matching the instantclient pattern. -/
theorem lastMatch_eq_filter (entries : List String) :
    Zip.lastMatch entries = (entries.filter Zip.icMatch).getLastD "" :=
  foldl_keep_last Zip.icMatch entries ""

/-- When some entry matches, the remembered entry itself matches the
pattern and in particular is not the empty string. -/
theorem lastMatch_matches (entries : List String)
    (h : entries.filter Zip.icMatch ≠ []) :
    Zip.icMatch (Zip.lastMatch entries) = true ∧ Zip.lastMatch entries ≠ "" := by
  rw [lastMatch_eq_filter]
  have hmem := getLastD_mem (entries.filter Zip.icMatch) "" h
  have hic : Zip.icMatch ((entries.filter Zip.icMatch).getLastD "") = true :=
    (List.mem_filter.1 hmem).2
  refine ⟨hic, ?_⟩
  intro he
  rw [he] at hic
  exact absurd hic (by decide)

/-- C2 (confirmed).  For every archive entry list: when no entry matches
the pattern instantclient_<1-2 digits>_<1-2 digits>/ the extraction fails
with the install-category error "no valid instant client directory found in
zip", and when at least one entry matches, extraction returns the last
matching entry in the archive's own entry order. -/
theorem unzip_returns_last_matching_entry (entries : List String) :
    (entries.filter Zip.icMatch = [] →
      Zip.unzipOracleInstantClient entries = Except.error Zip.noDirError) ∧
    (entries.filter Zip.icMatch ≠ [] →
      Zip.unzipOracleInstantClient entries =
        Except.ok ((entries.filter Zip.icMatch).getLastD "")) := by
  constructor
  · intro h
    unfold Zip.unzipOracleInstantClient
    rw [lastMatch_eq_filter, h]
    rfl
  · intro h
    have hm := lastMatch_matches entries h
    unfold Zip.unzipOracleInstantClient
    rw [if_neg hm.2]
    rw [lastMatch_eq_filter]

/-- Witness for C2: a three-entry archive with two matching entries returns
the later of the two; the error branch is also exercised on the empty
archive. -/
theorem unzip_returns_last_matching_entry_witness :
    Zip.unzipOracleInstantClient ["a", "instantclient_19_8/", "instantclient_19_9/"] =
      Except.ok "instantclient_19_9/" ∧
    Zip.unzipOracleInstantClient ["readme.txt"] = Except.error Zip.noDirError := by
  constructor
  · exact ((unzip_returns_last_matching_entry
      ["a", "instantclient_19_8/", "instantclient_19_9/"]).2 (by decide)).trans (by rfl)
  · exact (unzip_returns_last_matching_entry ["readme.txt"]).1 (by decide)

/-- Initial-segment test succeeds on an extension of the segment itself. -/
theorem leadsChars_self_append (p : List Char) : ∀ y, Env.leadsChars p (p ++ y) = true := by
  induction p with
  | nil => intro y; rfl
  | cons c cs ih =>
    intro y
    simp [Env.leadsChars, ih]

/-- Substring search finds a block that occurs contiguously in the hay. -/
theorem hasSub_parts (p : List Char) : ∀ x y, Env.hasSub (x ++ (p ++ y)) p = true := by
  intro x
  induction x with
  | nil =>
    intro y
    rw [List.nil_append]
    cases hpy : p ++ y with
    | nil =>
      have hp : p = [] := by
        cases p with
        | nil => rfl
        | cons a as => simp at hpy
      subst hp
      simp [Env.hasSub]
    | cons a t =>
      show (Env.leadsChars p (a :: t) || Env.hasSub t p) = true
      have hl : Env.leadsChars p (a :: t) = true := by
        rw [← hpy]
        exact leadsChars_self_append p y
      rw [hl]
      rfl
  | cons c cs ih =>
    intro y
    show (Env.leadsChars p (c :: (cs ++ (p ++ y))) || Env.hasSub (cs ++ (p ++ y)) p) = true
    rw [ih y, Bool.or_true]

/-- Model of strings.Contains applied to a string assembled around the
needle: containment always holds. -/
theorem goContains_parts (x p y : String) : Env.goContains (x ++ (p ++ y)) p = true := by
  unfold Env.goContains
  rw [String.data_append, String.data_append]
  exact hasSub_parts p.data x.data y.data

/-- Reading a stored value back out of a one-point update of the table. -/
theorem set_get_same (st : EnvState) (n v : String) : st.set n v n = v := by
  simp [EnvState.set]

/-- Reduction of AppendToPath once the PATH read is known to succeed. -/
theorem appendToPath_eq (st : EnvState) (p old : String)
    (h : Env.GetEnvVar st "PATH" = Except.ok old) :
    Env.AppendToPath st p =
      (if Env.goContains old p then (Except.ok (), st)
       else (Except.ok (), Env.SetEnvVar st "PATH"
         ((if Env.goHasSuffix old ";" then old else old ++ ";") ++ p ++ ";"))) := by
  unfold Env.AppendToPath
  rw [h]

/-- C5 counterexample.  The claim "otherwise the new PATH equals the old
PATH followed by p, with exactly one ';' separator between the old value
and p" fails when the stored PATH already ends in two semicolons: for PATH
"a;;" and p = "b" (not contained), AppendToPath inserts no separator at
all, producing "a;;b;" — two semicolons stand between the segment "a" and
"b", and the result differs from the old value followed by one ';' and p. -/
theorem appendToPath_double_separator_counterexample :
    (Env.AppendToPath (fun n => if n = "PATH" then "a;;" else "") "b").2 "PATH" = "a;;b;" ∧
    ("a;;b;" : String) ≠ "a;;" ++ ";" ++ "b" ++ ";" := by
  constructor
  · rfl
  · decide

/-- C5 (amended).  When the current PATH reads successfully as old:
if old contains p as a substring, AppendToPath changes nothing; otherwise
it succeeds and the new PATH is the old value, followed by one inserted
';' only when the old value does not already end with ';', then p, then
exactly one trailing ';' — and p occurs in the new PATH. -/
theorem appendToPath_amended (st : EnvState) (p old : String)
    (h : Env.GetEnvVar st "PATH" = Except.ok old) :
    (Env.goContains old p = true → Env.AppendToPath st p = (Except.ok (), st)) ∧
    (Env.goContains old p = false →
      (Env.AppendToPath st p).1 = Except.ok () ∧
      (Env.AppendToPath st p).2 "PATH" =
        (if Env.goHasSuffix old ";" then old else old ++ ";") ++ p ++ ";" ∧
      Env.goContains ((Env.AppendToPath st p).2 "PATH") p = true) := by
  constructor
  · intro hc
    rw [appendToPath_eq st p old h, if_pos hc]
  · intro hc
    rw [appendToPath_eq st p old h, if_neg (by simp [hc])]
    refine ⟨rfl, set_get_same st "PATH" _, ?_⟩
    show Env.goContains (EnvState.set st "PATH"
      ((if Env.goHasSuffix old ";" then old else old ++ ";") ++ p ++ ";") "PATH") p = true
    rw [set_get_same, String.append_assoc]
    exact goContains_parts _ p ";"

/-- Witness for C5's amended theorem at PATH "C:\\W" and p "b": the path is
appended with one separator on each side. -/
theorem appendToPath_amended_witness :
    (Env.AppendToPath (fun n => if n = "PATH" then "C:\\W" else "") "b").1 = Except.ok () ∧
    (Env.AppendToPath (fun n => if n = "PATH" then "C:\\W" else "") "b").2 "PATH" =
      (if Env.goHasSuffix "C:\\W" ";" then "C:\\W" else "C:\\W" ++ ";") ++ "b" ++ ";" ∧
    Env.goContains
      ((Env.AppendToPath (fun n => if n = "PATH" then "C:\\W" else "") "b").2 "PATH") "b" = true :=
  (appendToPath_amended (fun n => if n = "PATH" then "C:\\W" else "") "b" "C:\\W"
    (by rfl)).2 (by decide)

/-- C6 (confirmed).  When the current PATH reads successfully as old,
RemoveFromPath(p) succeeds and stores PATH as the ';'-join of exactly those
';'-separated segments of old that are not equal to p, in their original
order: every segment exactly equal to p is removed, all occurrences. -/
theorem removeFromPath_filters_all_equal_segments (st : EnvState) (p old : String)
    (h : Env.GetEnvVar st "PATH" = Except.ok old) :
    Env.RemoveFromPath st p =
      (Except.ok (), Env.SetEnvVar st "PATH"
        (String.intercalate ";" ((Env.goSplitSemi old).filter (fun segment => segment ≠ p)))) := by
  unfold Env.RemoveFromPath
  rw [h]

/-- Witness for C6: a PATH holding the segment "a" twice loses both copies
and keeps the other segments in order. -/
theorem removeFromPath_filters_all_equal_segments_witness :
    (Env.RemoveFromPath (fun n => if n = "PATH" then "a;b;a;c" else "") "a").2 "PATH" = "b;c" := by
  rw [removeFromPath_filters_all_equal_segments
    (fun n => if n = "PATH" then "a;b;a;c" else "") "a" "a;b;a;c" (by rfl)]
  rfl

/-- C7 counterexample.  The round-trip claim fails for the value ".":
setting a variable to "." and reading it back does not return "." but fails
with the env-var-not-found error, because GetEnvVar deliberately treats
".", "..", "/", "\\" and the empty string as absent. -/
theorem setGet_degenerate_value_counterexample :
    Env.GetEnvVar (Env.SetEnvVar (fun _ => "") "FOO" ".") "FOO" =
      Except.error (Env.notFoundError "FOO") ∧
    Env.GetEnvVar (Env.SetEnvVar (fun _ => "") "FOO" ".") "FOO" ≠ Except.ok "." := by
  constructor
  · rfl
  · decide

/-- C7 (amended).  For every variable name and every value that carries no
surrounding whitespace and is none of "", ".", "..", "/", "\\": set followed
by get returns the value, and remove followed by get fails with the
env-var-not-found error. -/
theorem envVar_roundtrip_amended (st : EnvState) (name value : String)
    (htrim : Env.TrimSpace value = value) (hdeg : Env.isDegenerate value = false) :
    Env.GetEnvVar (Env.SetEnvVar st name value) name = Except.ok value ∧
    Env.GetEnvVar (Env.RemoveEnvVar st name) name =
      Except.error (Env.notFoundError name) := by
  constructor
  · unfold Env.GetEnvVar Env.SetEnvVar
    rw [set_get_same, htrim]
    simp [hdeg]
  · unfold Env.GetEnvVar Env.RemoveEnvVar
    rw [set_get_same]
    rfl

/-- Witness for C7's amended theorem at the install's own variable and a
realistic library path. -/
theorem envVar_roundtrip_amended_witness :
    Env.GetEnvVar (Env.SetEnvVar (fun _ => "") "OCI_LIB64" "C:\\OraClient") "OCI_LIB64" =
      Except.ok "C:\\OraClient" ∧
    Env.GetEnvVar (Env.RemoveEnvVar (fun _ => "") "OCI_LIB64") "OCI_LIB64" =
      Except.error (Env.notFoundError "OCI_LIB64") :=
  envVar_roundtrip_amended (fun _ => "") "OCI_LIB64" "C:\\OraClient" (by decide) (by decide)

/-- C8 counterexample.  The legacy directory-path prompt
(src/oraicwinconfig.go reqUserInstallPath) has no attempt bound: fed four
invalid entries it consumes all four and keeps looping (here: exhausts the
input), instead of aborting with "maximum input attempts exceeded" after
the third as the claim requires; indeed this prompt can never produce the
maximum-attempts abort. -/
theorem legacy_path_prompt_never_aborts_counterexample :
    Input.reqUserInstallPathLegacy (fun _ => false) ["x", "x", "x", "x"] =
      Input.PathOutcome.inputExhausted ∧
    Input.PathOutcome.inputExhausted ≠ Input.PathOutcome.maxAttemptsFatal := by
  constructor
  · rfl
  · decide

/-- C8 (amended).  The y/n confirmation prompt (both versions) and the
bounded directory-path prompt of the internal input package terminate,
aborting fatally with "maximum input attempts exceeded" as soon as three
consecutive invalid entries are read, whatever input follows; the legacy
single-file directory-path prompt, by contrast, re-prompts without bound. -/
theorem bounded_prompts_abort_after_three_invalid :
    (∀ (a b c : String) (rest : List String),
      Env.goToLower (Env.TrimSpace a) ≠ "y" → Env.goToLower (Env.TrimSpace a) ≠ "n" →
      Env.goToLower (Env.TrimSpace b) ≠ "y" → Env.goToLower (Env.TrimSpace b) ≠ "n" →
      Env.goToLower (Env.TrimSpace c) ≠ "y" → Env.goToLower (Env.TrimSpace c) ≠ "n" →
      Input.ReqUserConfirmation (a :: b :: c :: rest) =
        Input.ConfirmOutcome.maxAttemptsFatal) ∧
    (∀ (isDir : String → Bool) (a b c : String) (rest : List String),
      a ≠ "" → b ≠ "" → c ≠ "" →
      isDir (Env.TrimSpace a) = false → isDir (Env.TrimSpace b) = false →
      isDir (Env.TrimSpace c) = false →
      Input.ReqUserInstallPath isDir (a :: b :: c :: rest) =
        Input.PathOutcome.maxAttemptsFatal) := by
  constructor
  · intro a b c rest hay han hby hbn hcy hcn
    unfold Input.ReqUserConfirmation
    simp [Input.reqUserConfirmationLoop, hay, han, hby, hbn, hcy, hcn]
  · intro isDir a b c rest ha hb hc hda hdb hdc
    unfold Input.ReqUserInstallPath
    simp [Input.reqUserInstallPathLoop, ha, hb, hc, hda, hdb, hdc]

/-- Witness for C8's amended theorem: three "x" entries abort both bounded
prompts fatally. -/
theorem bounded_prompts_abort_after_three_invalid_witness :
    Input.ReqUserConfirmation ["x", "x", "x"] = Input.ConfirmOutcome.maxAttemptsFatal ∧
    Input.ReqUserInstallPath (fun _ => false) ["x", "x", "x"] =
      Input.PathOutcome.maxAttemptsFatal :=
  ⟨bounded_prompts_abort_after_three_invalid.1 "x" "x" "x" []
      (by decide) (by decide) (by decide) (by decide) (by decide) (by decide),
    bounded_prompts_abort_after_three_invalid.2 (fun _ => false) "x" "x" "x" []
      (by decide) (by decide) (by decide) (by decide) (by decide) (by decide)⟩

/-- C9 (confirmed).  When OCI_LIB64 does not resolve at the start of
Uninstall (latest version), Uninstall returns success at once and performs
no effect at all: the environment table, the filesystem (no directory
removed) and the configuration are all returned exactly as given. -/
theorem uninstall_early_return_frame (conf : InstallConfig) (st : EnvState)
    (h : Env.GetEnvVar st "OCI_LIB64" = Except.error (Env.notFoundError "OCI_LIB64")) :
    OIC.Uninstall conf st =
      { result := Except.ok (), env := st, removed := [], conf := conf } := by
  unfold OIC.Uninstall
  rw [h]
  rfl

/-- Witness for C9 on the empty environment table. -/
theorem uninstall_early_return_frame_witness :
    OIC.Uninstall
      { InstallPath := "C:/OraClient", DownloadsPath := "C:/Users/u/Downloads",
        PkgFile := "instantclient-basiclite-windows.zip",
        SdkFile := "instantclient-sdk-windows.zip",
        BaseURL := "https://download.oracle.com/otn_software/nt/instantclient/",
        Extant := false }
      (fun _ => "") =
      { result := Except.ok (), env := fun _ => "", removed := [],
        conf :=
          { InstallPath := "C:/OraClient", DownloadsPath := "C:/Users/u/Downloads",
            PkgFile := "instantclient-basiclite-windows.zip",
            SdkFile := "instantclient-sdk-windows.zip",
            BaseURL := "https://download.oracle.com/otn_software/nt/instantclient/",
            Extant := false } } :=
  uninstall_early_return_frame _ (fun _ => "") (by rfl)

/-- C1 (code bug).  The degenerate-path deletion guard required by the spec
is present in Remove (src/unnamed/part_002) but absent from the latest
Uninstall, whose own comment still says "Remove installation directory with
safety checks": in an identical situation — OCI_LIB64 set and readable,
PATH readable, install path resolved to "/" — Remove refuses with the fatal
install-category error and deletes nothing, while Uninstall passes "/" to
os.RemoveAll, deleting the tree the claim requires to be left untouched. -/
theorem uninstall_deletes_degenerate_root_unguarded :
    (OIC.Remove
      { InstallPath := "/", DownloadsPath := "C:/Users/u/Downloads",
        PkgFile := "instantclient-basiclite-windows.zip",
        SdkFile := "instantclient-sdk-windows.zip",
        BaseURL := "https://download.oracle.com/otn_software/nt/instantclient/",
        Extant := false }
      (fun n => if n = "OCI_LIB64" then "C:\\OraClient\\instantclient_19_8"
        else if n = "PATH" then "C:\\OraClient\\instantclient_19_8;C:\\Windows" else "")).removed
      = [] ∧
    (OIC.Remove
      { InstallPath := "/", DownloadsPath := "C:/Users/u/Downloads",
        PkgFile := "instantclient-basiclite-windows.zip",
        SdkFile := "instantclient-sdk-windows.zip",
        BaseURL := "https://download.oracle.com/otn_software/nt/instantclient/",
        Extant := false }
      (fun n => if n = "OCI_LIB64" then "C:\\OraClient\\instantclient_19_8"
        else if n = "PATH" then "C:\\OraClient\\instantclient_19_8;C:\\Windows" else "")).result
      = Except.error (HandleError
          ("refusing to remove invalid or critical system directory: " ++ goQuote "/")
          ErrorType.install "removing installation directory") ∧
    (OIC.Uninstall
      { InstallPath := "/", DownloadsPath := "C:/Users/u/Downloads",
        PkgFile := "instantclient-basiclite-windows.zip",
        SdkFile := "instantclient-sdk-windows.zip",
        BaseURL := "https://download.oracle.com/otn_software/nt/instantclient/",
        Extant := false }
      (fun n => if n = "OCI_LIB64" then "C:\\OraClient\\instantclient_19_8"
        else if n = "PATH" then "C:\\OraClient\\instantclient_19_8;C:\\Windows" else "")).removed
      = ["/"] := by
  refine ⟨rfl, rfl, rfl⟩

/-- Reading some other variable out of a one-point update of the table. -/
theorem set_get_other (st : EnvState) (n v m : String) (h : m ≠ n) : st.set n v m = st m := by
  simp [EnvState.set, h]

/-- A get is unaffected by a set of a different variable. -/
theorem getEnvVar_set_other (st : EnvState) (n v m : String) (h : m ≠ n) :
    Env.GetEnvVar (Env.SetEnvVar st n v) m = Env.GetEnvVar st m := by
  unfold Env.GetEnvVar Env.SetEnvVar
  rw [set_get_other st n v m h]

/-- C4 (confirmed).  When the two archives extract to different top-level
directory names, Install fails with the install-category version-mismatch
error whose message carries both extracted names, and the returned
environment table is exactly the initial one — no variable was modified —
and no file was migrated. -/
theorem install_version_mismatch_fails_untouched
    (conf : InstallConfig) (pkgE sdkE : List String) (st : EnvState) (d1 d2 : String)
    (hp : Zip.UnZip pkgE = Except.ok d1) (hs : Zip.UnZip sdkE = Except.ok d2)
    (hne : d1 ≠ d2) :
    OIC.Install conf pkgE sdkE st =
      { result := Except.error (HandleError
          ("package version (" ++ d1 ++ ") does not match SDK version (" ++ d2 ++ ")")
          ErrorType.install "version verification"),
        env := st, migrated := [] } := by
  unfold OIC.Install
  rw [hp, hs]
  simp only [OIC.installConfigure]
  rw [if_pos hne]

/-- Witness for C4: archives extracting to instantclient_19_8 and
instantclient_19_9 fail with the mismatch error and leave the empty
environment table untouched. -/
theorem install_version_mismatch_fails_untouched_witness :
    OIC.Install
      { InstallPath := "C:/OraClient", DownloadsPath := "C:/Users/u/Downloads",
        PkgFile := "instantclient-basiclite-windows.zip",
        SdkFile := "instantclient-sdk-windows.zip",
        BaseURL := "https://download.oracle.com/otn_software/nt/instantclient/",
        Extant := false }
      ["instantclient_19_8/"] ["instantclient_19_9/"] (fun _ => "") =
      { result := Except.error (HandleError
          ("package version (instantclient_19_8) does not match SDK version (instantclient_19_9)")
          ErrorType.install "version verification"),
        env := fun _ => "", migrated := [] } := by
  have h := install_version_mismatch_fails_untouched
    { InstallPath := "C:/OraClient", DownloadsPath := "C:/Users/u/Downloads",
      PkgFile := "instantclient-basiclite-windows.zip",
      SdkFile := "instantclient-sdk-windows.zip",
      BaseURL := "https://download.oracle.com/otn_software/nt/instantclient/",
      Extant := false }
    ["instantclient_19_8/"] ["instantclient_19_9/"] (fun _ => "")
    "instantclient_19_8" "instantclient_19_9" (by rfl) (by rfl) (by decide)
  exact h.trans (by rfl)

/-- C3 (confirmed).  When both archives extract to the same top-level
directory name D and the stored PATH is readable as stored (no surrounding
whitespace, not degenerate), Install succeeds, OCI_LIB64 holds the install
directory joined with D, TNS_ADMIN holds that library path joined with
network and admin, and the library path occurs in the final PATH — it was
appended unless it was already present as a substring. -/
theorem install_configures_environment
    (conf : InstallConfig) (pkgE sdkE : List String) (st : EnvState) (D : String)
    (hp : Zip.UnZip pkgE = Except.ok D) (hs : Zip.UnZip sdkE = Except.ok D)
    (hpath : Env.GetEnvVar st "PATH" = Except.ok (st "PATH")) :
    (OIC.Install conf pkgE sdkE st).result = Except.ok () ∧
    (OIC.Install conf pkgE sdkE st).env "OCI_LIB64" = FilePath.Join [conf.InstallPath, D] ∧
    (OIC.Install conf pkgE sdkE st).env "TNS_ADMIN" =
      FilePath.Join [FilePath.Join [conf.InstallPath, D], "network", "admin"] ∧
    Env.goContains ((OIC.Install conf pkgE sdkE st).env "PATH")
      (FilePath.Join [conf.InstallPath, D]) = true := by
  have hDD : ¬ (D ≠ D) := fun h => h rfl
  have hget1 : Env.GetEnvVar
      (Env.SetEnvVar st "OCI_LIB64" (FilePath.Join [conf.InstallPath, D])) "PATH" =
      Except.ok (st "PATH") :=
    (getEnvVar_set_other st "OCI_LIB64" (FilePath.Join [conf.InstallPath, D]) "PATH"
      (by decide)).trans hpath
  unfold OIC.Install
  rw [hp, hs]
  simp only [OIC.installConfigure]
  rw [if_neg hDD, appendToPath_eq _ (FilePath.Join [conf.InstallPath, D]) (st "PATH") hget1]
  cases hctn : Env.goContains (st "PATH") (FilePath.Join [conf.InstallPath, D]) with
  | true =>
    rw [if_pos rfl]
    simp only [OIC.installAfterAppend]
    cases hex : conf.Extant with
    | true =>
      rw [if_pos rfl]
      refine ⟨rfl, ?_, ?_, ?_⟩
      · dsimp only [Env.SetEnvVar]
        rw [set_get_other _ _ _ _ (by decide), set_get_same]
      · dsimp only [Env.SetEnvVar]
        rw [set_get_same]
      · dsimp only [Env.SetEnvVar]
        rw [set_get_other _ _ _ _ (by decide), set_get_other _ _ _ _ (by decide)]
        exact hctn
    | false =>
      rw [if_neg (by decide)]
      refine ⟨rfl, ?_, ?_, ?_⟩
      · dsimp only [Env.SetEnvVar]
        rw [set_get_other _ _ _ _ (by decide), set_get_same]
      · dsimp only [Env.SetEnvVar]
        rw [set_get_same]
      · dsimp only [Env.SetEnvVar]
        rw [set_get_other _ _ _ _ (by decide), set_get_other _ _ _ _ (by decide)]
        exact hctn
  | false =>
    rw [if_neg (by decide)]
    simp only [OIC.installAfterAppend]
    cases hex : conf.Extant with
    | true =>
      rw [if_pos rfl]
      refine ⟨rfl, ?_, ?_, ?_⟩
      · dsimp only [Env.SetEnvVar]
        rw [set_get_other _ _ _ _ (by decide), set_get_other _ _ _ _ (by decide), set_get_same]
      · dsimp only [Env.SetEnvVar]
        rw [set_get_same]
      · dsimp only [Env.SetEnvVar]
        rw [set_get_other _ _ _ _ (by decide), set_get_same, String.append_assoc]
        exact goContains_parts _ _ ";"
    | false =>
      rw [if_neg (by decide)]
      refine ⟨rfl, ?_, ?_, ?_⟩
      · dsimp only [Env.SetEnvVar]
        rw [set_get_other _ _ _ _ (by decide), set_get_other _ _ _ _ (by decide), set_get_same]
      · dsimp only [Env.SetEnvVar]
        rw [set_get_same]
      · dsimp only [Env.SetEnvVar]
        rw [set_get_other _ _ _ _ (by decide), set_get_same, String.append_assoc]
        exact goContains_parts _ _ ";"

/-- Witness for C3: both archives extract to instantclient_19_8, the
initial PATH is "C:\\Windows", and the resulting table holds the expected
OCI_LIB64 and TNS_ADMIN values with the library path present in PATH. -/
theorem install_configures_environment_witness :
    (OIC.Install
      { InstallPath := "C:/OraClient", DownloadsPath := "C:/Users/u/Downloads",
        PkgFile := "instantclient-basiclite-windows.zip",
        SdkFile := "instantclient-sdk-windows.zip",
        BaseURL := "https://download.oracle.com/otn_software/nt/instantclient/",
        Extant := false }
      ["instantclient_19_8/"] ["instantclient_19_8/"]
      (fun n => if n = "PATH" then "C:\\Windows" else "")).result = Except.ok () ∧
    (OIC.Install
      { InstallPath := "C:/OraClient", DownloadsPath := "C:/Users/u/Downloads",
        PkgFile := "instantclient-basiclite-windows.zip",
        SdkFile := "instantclient-sdk-windows.zip",
        BaseURL := "https://download.oracle.com/otn_software/nt/instantclient/",
        Extant := false }
      ["instantclient_19_8/"] ["instantclient_19_8/"]
      (fun n => if n = "PATH" then "C:\\Windows" else "")).env "OCI_LIB64" =
      FilePath.Join ["C:/OraClient", "instantclient_19_8"] ∧
    (OIC.Install
      { InstallPath := "C:/OraClient", DownloadsPath := "C:/Users/u/Downloads",
        PkgFile := "instantclient-basiclite-windows.zip",
        SdkFile := "instantclient-sdk-windows.zip",
        BaseURL := "https://download.oracle.com/otn_software/nt/instantclient/",
        Extant := false }
      ["instantclient_19_8/"] ["instantclient_19_8/"]
      (fun n => if n = "PATH" then "C:\\Windows" else "")).env "TNS_ADMIN" =
      FilePath.Join [FilePath.Join ["C:/OraClient", "instantclient_19_8"], "network", "admin"] ∧
    Env.goContains
      ((OIC.Install
        { InstallPath := "C:/OraClient", DownloadsPath := "C:/Users/u/Downloads",
          PkgFile := "instantclient-basiclite-windows.zip",
          SdkFile := "instantclient-sdk-windows.zip",
          BaseURL := "https://download.oracle.com/otn_software/nt/instantclient/",
          Extant := false }
        ["instantclient_19_8/"] ["instantclient_19_8/"]
        (fun n => if n = "PATH" then "C:\\Windows" else "")).env "PATH")
      (FilePath.Join ["C:/OraClient", "instantclient_19_8"]) = true :=
  install_configures_environment
    { InstallPath := "C:/OraClient", DownloadsPath := "C:/Users/u/Downloads",
      PkgFile := "instantclient-basiclite-windows.zip",
      SdkFile := "instantclient-sdk-windows.zip",
      BaseURL := "https://download.oracle.com/otn_software/nt/instantclient/",
      Extant := false }
    ["instantclient_19_8/"] ["instantclient_19_8/"]
    (fun n => if n = "PATH" then "C:\\Windows" else "")
    "instantclient_19_8" (by rfl) (by rfl) (by rfl)

/-- Digits are not path separators. -/
theorem digit_not_sep (c : Char) (h : c.isDigit = true) : FilePath.isSepChar c = false := by
  by_cases h1 : c = '/'
  · subst h1; exact absurd h (by decide)
  · by_cases h2 : c = '\\'
    · subst h2; exact absurd h (by decide)
    · simp [FilePath.isSepChar, h1, h2]

/-- Successful literal consumption decomposes the input. -/
theorem dropLit_eq : ∀ (lit l r : List Char), Zip.dropLit lit l = some r → l = lit ++ r := by
  intro lit
  induction lit with
  | nil =>
    intro l r h
    simp only [Zip.dropLit, Option.some.injEq] at h
    simp [h]
  | cons c cs ih =>
    intro l r h
    cases l with
    | nil => simp [Zip.dropLit] at h
    | cons d ds =>
      by_cases hd : d = c
      · simp only [Zip.dropLit, if_pos hd] at h
        subst hd
        rw [List.cons_append]
        rw [ih ds r h]
      · simp [Zip.dropLit, hd] at h

/-- Successful digit-then-separator consumption decomposes the input into
one or two digits, the separator, and the remainder. -/
theorem digitsThen_eq (sep : Char) : ∀ (l r : List Char), Zip.digitsThen sep l = some r →
    ∃ ds, l = ds ++ sep :: r ∧ ds ≠ [] ∧ ∀ c ∈ ds, c.isDigit = true := by
  intro l r h
  rcases l with _ | ⟨a, _ | ⟨b, rest2⟩⟩
  · simp [Zip.digitsThen] at h
  · by_cases ha : a.isDigit = true
    · simp [Zip.digitsThen, ha] at h
    · simp [Zip.digitsThen, ha] at h
  · by_cases ha : a.isDigit = true
    · by_cases hb : b.isDigit = true
      · rcases rest2 with _ | ⟨c, rest3⟩
        · simp [Zip.digitsThen, ha, hb] at h
        · by_cases hc : c = sep
          · subst hc
            have h' : rest3 = r := by
              simpa [Zip.digitsThen, ha, hb] using h
            refine ⟨[a, b], ?_, by simp, ?_⟩
            · subst h'; rfl
            · intro x hx
              simp only [List.mem_cons, List.not_mem_nil, or_false] at hx
              rcases hx with rfl | rfl
              · exact ha
              · exact hb
          · simp [Zip.digitsThen, ha, hb, hc] at h
      · by_cases hb2 : b = sep
        · subst hb2
          have h' : rest2 = r := by
            simpa [Zip.digitsThen, ha, hb] using h
          refine ⟨[a], ?_, by simp, ?_⟩
          · subst h'; rfl
          · intro x hx
            simp only [List.mem_cons, List.not_mem_nil, or_false] at hx
            subst hx
            exact ha
        · simp [Zip.digitsThen, ha, hb, hb2] at h
    · simp [Zip.digitsThen, ha] at h

/-- Structure of a matched entry name: a nonempty separator-free core
beginning with the letter i, followed by exactly one final slash. -/
theorem icMatch_shape (l : List Char) (h : Zip.icMatchChars l = true) :
    ∃ core, l = core ++ ['/'] ∧ core.head? = some 'i' ∧
      ∀ c ∈ core, FilePath.isSepChar c = false := by
  unfold Zip.icMatchChars at h
  cases hd : Zip.dropLit ("instantclient_".data) l with
  | none => rw [hd] at h; simp at h
  | some r =>
    rw [hd] at h
    have ha : (match Zip.digitsThen '_' r with
        | none => false
        | some r2 =>
          match Zip.digitsThen '/' r2 with
          | some [] => true
          | _ => false) = true := h
    cases h1 : Zip.digitsThen '_' r with
    | none => rw [h1] at ha; simp at ha
    | some r2 =>
      rw [h1] at ha
      have hb : (match Zip.digitsThen '/' r2 with
          | some [] => true
          | _ => false) = true := ha
      cases h2 : Zip.digitsThen '/' r2 with
      | none => rw [h2] at hb; simp at hb
      | some r3 =>
        rw [h2] at hb
        have hr3 : r3 = [] := by
          cases r3 with
          | nil => rfl
          | cons x xs => simp at hb
        subst hr3
        have hleq := dropLit_eq ("instantclient_".data) l r hd
        obtain ⟨d1, hd1, _, hd1dig⟩ := digitsThen_eq '_' r r2 h1
        obtain ⟨d2, hd2, _, hd2dig⟩ := digitsThen_eq '/' r2 [] h2
        refine ⟨"instantclient_".data ++ d1 ++ '_' :: d2, ?_, rfl, ?_⟩
        · rw [hleq, hd1, hd2]
          simp
        · intro c hc
          rw [List.append_assoc] at hc
          rcases List.mem_append.1 hc with hc1 | hc2
          · have hlit : ∀ x ∈ "instantclient_".data, FilePath.isSepChar x = false := by decide
            exact hlit c hc1
          · rcases List.mem_append.1 hc2 with hcd | hcr
            · exact digit_not_sep c (hd1dig c hcd)
            · rcases List.mem_cons.1 hcr with rfl | hcd2
              · rfl
              · exact digit_not_sep c (hd2dig c hcd2)

/-- Separator split of a separator-free block followed by one slash. -/
theorem splitSeps_noSep (xs : List Char) (h : ∀ c ∈ xs, FilePath.isSepChar c = false) :
    FilePath.splitSeps (xs ++ ['/']) = [xs, []] := by
  induction xs with
  | nil => rfl
  | cons c cs ih =>
    have hc : FilePath.isSepChar c = false := h c (by simp)
    have ih' := ih (fun x hx => h x (by simp [hx]))
    show FilePath.splitSeps (c :: (cs ++ ['/'])) = [c :: cs, []]
    simp only [FilePath.splitSeps]
    rw [ih']
    simp [hc]

/-- Cleaning a directory entry consisting of a plain name and the final
slash yields exactly the name. -/
theorem cleanChars_dirEntry (core : List Char) (hne : core ≠ [])
    (hHead : core.head? = some 'i') (hns : ∀ c ∈ core, FilePath.isSepChar c = false) :
    FilePath.cleanChars (core ++ ['/']) = core := by
  obtain ⟨x, xs, rfl⟩ := List.exists_cons_of_ne_nil hne
  have hx : x = 'i' := by simpa using hHead
  subst hx
  have h1 : ¬('i' :: xs = [] ∨ 'i' :: xs = ['.']) := by
    rintro (h | h) <;> simp at h
  have h2 : ¬('i' :: xs = ['.', '.']) := by
    intro h; simp at h
  have hstep1 : FilePath.cleanStep false [] ('i' :: xs) = ['i' :: xs] := by
    unfold FilePath.cleanStep
    rw [if_neg h1, if_neg h2]
  have hstep2 : FilePath.cleanStep false ['i' :: xs] [] = ['i' :: xs] := by
    unfold FilePath.cleanStep
    rw [if_pos (Or.inl rfl)]
  unfold FilePath.cleanChars
  rw [splitSeps_noSep ('i' :: xs) hns]
  show (let stack := List.foldl (FilePath.cleanStep false) [] ['i' :: xs, []]
        let body := List.intercalate ['\\'] stack.reverse
        if false = true then '\\' :: body
        else if body = [] then ['.'] else body) = 'i' :: xs
  simp only [List.foldl_cons, List.foldl_nil, hstep1, hstep2]
  simp [List.intercalate]

/-- C10 (confirmed).  Whenever UnZip succeeds, the returned top-level
directory name contains no path separator at all — in particular it does
not end with a slash or a backslash: the matched entry name, which always
ends in one slash, is passed through filepath.Clean before being
returned. -/
theorem unZip_no_trailing_separator (entries : List String) (r : String)
    (h : Zip.UnZip entries = Except.ok r) :
    r ≠ "" ∧ (∀ c ∈ r.data, FilePath.isSepChar c = false) ∧
    r.data.getLast? ≠ some '/' ∧ r.data.getLast? ≠ some '\\' := by
  unfold Zip.UnZip at h
  by_cases hlm : Zip.lastMatch entries = ""
  · rw [if_pos hlm] at h
    cases h
  · rw [if_neg hlm] at h
    have hr : r = FilePath.Clean (Zip.lastMatch entries) := (Except.ok.inj h).symm
    have hf : entries.filter Zip.icMatch ≠ [] := by
      intro hfe
      apply hlm
      rw [lastMatch_eq_filter, hfe]
      rfl
    have hic : Zip.icMatchChars ((Zip.lastMatch entries).data) = true :=
      (lastMatch_matches entries hf).1
    obtain ⟨core, hcore, hHead, hns⟩ := icMatch_shape _ hic
    have hcne : core ≠ [] := by
      intro hce
      rw [hce] at hHead
      simp at hHead
    have hrdata : r.data = core := by
      rw [hr]
      show FilePath.cleanChars ((Zip.lastMatch entries).data) = core
      rw [hcore]
      exact cleanChars_dirEntry core hcne hHead hns
    refine ⟨?_, ?_, ?_, ?_⟩
    · intro hre
      rw [hre] at hrdata
      exact hcne hrdata.symm
    · intro c hc
      rw [hrdata] at hc
      exact hns c hc
    · intro hl
      exact absurd (hns '/' (by rw [← hrdata]; exact List.mem_of_mem_getLast? hl)) (by decide)
    · intro hl
      exact absurd (hns '\\' (by rw [← hrdata]; exact List.mem_of_mem_getLast? hl)) (by decide)

/-- Witness for C10: a three-entry archive yields the cleaned name
instantclient_19_8 with no separator anywhere, in particular none at the
end. -/
theorem unZip_no_trailing_separator_witness :
    ("instantclient_19_8" : String) ≠ "" ∧
    (∀ c ∈ ("instantclient_19_8" : String).data, FilePath.isSepChar c = false) ∧
    ("instantclient_19_8" : String).data.getLast? ≠ some '/' ∧
    ("instantclient_19_8" : String).data.getLast? ≠ some '\\' :=
  unZip_no_trailing_separator ["x/", "instantclient_19_8/", "x/y"]
    "instantclient_19_8" (by rfl)

end Oraic
